import Mathlib

/-!
Verification of the `sb_mount` LSM hook decision engine from
`src/ebpfguard-ebpf/src/sb_mount.rs`.

The hook decides whether to allow a filesystem mount based on two policy
maps (`ALLOWED_SB_MOUNT`, `DENIED_SB_MOUNT`) keyed by the inode of the
requesting program's executable, with a reserved wildcard key, and emits an
alert record on every denial.

Modelling choices:
* a policy map (`aya_bpf::maps::HashMap<u64, u8>`) is read by the source
  only through `map.get(&k).is_some()`, i.e. key membership; we model a map
  by the list of its present keys (`PolicyMap := List Nat`), u64 keys as
  `Nat` since only equality is used;
* `current_binprm_inode()` lives in `crate::binprm` (not under `src/`): its
  already-computed result is passed in as `Except Int Nat` so that its
  failure propagates through the source's `?` operator exactly;
* the alert channel `ALERT_SB_MOUNT.output` (declared in `crate::maps`, not
  under `src/`) is modelled as a sink callback returning a success flag that
  the source discards, and the model additionally returns the list of
  records submitted during the call, so that alert emission is observable.
-/

namespace Ebpfguard

/-- Enforcement mode (`crate::Mode` as used by `sb_mount.rs`): `Allowlist`
means default-deny with the exception table carving out allowances,
`Denylist` means default-allow with the exception table carving out
denials. -/
inductive Mode where
  | Allowlist
  | Denylist
deriving DecidableEq, Repr

/-- Decision returned by the hook (`crate::Action` as used by
`sb_mount.rs`). -/
inductive Action where
  | Allow
  | Deny
deriving DecidableEq, Repr

/-- Modelled from the spec: the reserved wildcard subject id
`INODE_WILDCARD` from `ebpfguard_common::consts`, which is not under
`src/`. The spec requires only a reserved `SubjectId` value meaning
"match every subject"; no claim depends on its concrete value. -/
def INODE_WILDCARD : Nat := 0

/-- A policy map: the list of keys present in the
`aya_bpf::maps::HashMap<u64, u8>`; the source observes only membership via
`map.get(&k).is_some()`, modelled as `List.contains`. -/
abbrev PolicyMap := List Nat

/-- Modelled from the spec: the alert record
`ebpfguard_common::alerts::SbMount` (not under `src/`), an immutable value
carrying the requesting process id and the subject id (binprm inode). -/
structure SbMount where
  pid : Nat
  binprm_inode : Nat
deriving DecidableEq, Repr

/-- Modelled from the spec: the constructor
`alerts::SbMount::new(ctx.pid(), binprm_inode)`. -/
def SbMount.new (pid binprm_inode : Nat) : SbMount :=
  { pid := pid, binprm_inode := binprm_inode }

/-- `check_conditions` from `sb_mount.rs` (lines 56-76): consult the
exception table for the wildcard key, then for the specific subject key;
a hit maps Allowlist to Allow and Denylist to Deny, a miss inverts the
mapping. -/
def check_conditions (map : PolicyMap) (binprm_inode : Nat) (mode : Mode) :
    Action :=
  if map.contains INODE_WILDCARD then
    match mode with
    | Mode.Allowlist => Action.Allow
    | Mode.Denylist => Action.Deny
  else if map.contains binprm_inode then
    match mode with
    | Mode.Allowlist => Action.Allow
    | Mode.Denylist => Action.Deny
  else
    match mode with
    | Mode.Allowlist => Action.Deny
    | Mode.Denylist => Action.Allow

/-- `check_conditions_and_alert` from `sb_mount.rs` (lines 40-54): on a
`Deny` decision, submit one `SbMount` alert record built from the context
pid and the binprm inode, discarding the submission outcome; on any other
decision, submit nothing. The returned list records the submissions
performed. -/
def check_conditions_and_alert (sink : SbMount → Bool) (map : PolicyMap)
    (pid : Nat) (binprm_inode : Nat) (mode : Mode) :
    Action × List SbMount :=
  match check_conditions map binprm_inode mode with
  | Action.Deny =>
    let record := SbMount.new pid binprm_inode
    let _ := sink record
    (Action.Deny, [record])
  | action => (action, [])

/-- `sb_mount` from `sb_mount.rs` (lines 26-38): propagate a failure of
subject-id extraction; if the allow table holds the wildcard, run the
decision algorithm in `Denylist` mode against the deny table; otherwise if
the deny table holds the wildcard, run it in `Allowlist` mode against the
allow table; otherwise return `Allow` unconditionally. -/
def sb_mount (sink : SbMount → Bool) (allowed denied : PolicyMap)
    (binprm : Except Int Nat) (pid : Nat) :
    Except Int (Action × List SbMount) :=
  match binprm with
  | Except.error e => Except.error e
  | Except.ok binprm_inode =>
    if allowed.contains INODE_WILDCARD then
      Except.ok
        (check_conditions_and_alert sink denied pid binprm_inode
          Mode.Denylist)
    else if denied.contains INODE_WILDCARD then
      Except.ok
        (check_conditions_and_alert sink allowed pid binprm_inode
          Mode.Allowlist)
    else
      Except.ok (Action.Allow, [])

/-- The mode resolution performed by the two `if`s of `sb_mount` (lines
29-35; the spec's ModeResolver): which mode and exception table the
decision algorithm is invoked with, `none` when neither table holds the
wildcard (unrestricted). -/
def resolve (allowed denied : PolicyMap) : Option (Mode × PolicyMap) :=
  if allowed.contains INODE_WILDCARD then some (Mode.Denylist, denied)
  else if denied.contains INODE_WILDCARD then some (Mode.Allowlist, allowed)
  else none

/-- The merged two-case decision function following claim C10's words: a
single membership disjunction (wildcard or specific subject) selects the
direct mapping, absence selects the inverse. -/
def check_conditions_merged (map : PolicyMap) (binprm_inode : Nat)
    (mode : Mode) : Action :=
  if map.contains INODE_WILDCARD || map.contains binprm_inode then
    match mode with
    | Mode.Allowlist => Action.Allow
    | Mode.Denylist => Action.Deny
  else
    match mode with
    | Mode.Allowlist => Action.Deny
    | Mode.Denylist => Action.Allow

/-- Modelled from the spec: the error code surfaced when a policy table
lookup cannot be completed (spec section 7, PolicyTableUnavailable). The
table declarations live in `crate::maps`, not under `src/`. -/
def policyTableUnavailable : Int := -1

/-- Modelled from the spec: a point lookup against a possibly-unavailable
policy table; `none` stands for an uninitialized table, on which a lookup
cannot be completed and fails with `policyTableUnavailable`. -/
def table_lookup (t : Option PolicyMap) (k : Nat) : Except Int Bool :=
  match t with
  | none => Except.error policyTableUnavailable
  | some m => Except.ok (m.contains k)

/-- `check_conditions` lifted over possibly-unavailable tables: same
control flow as the source, each membership test performed through
`table_lookup`, a failed lookup surfaced immediately. -/
def check_conditions_tables (t : Option PolicyMap) (binprm_inode : Nat)
    (mode : Mode) : Except Int Action :=
  match table_lookup t INODE_WILDCARD with
  | Except.error e => Except.error e
  | Except.ok true =>
    Except.ok
      (match mode with
       | Mode.Allowlist => Action.Allow
       | Mode.Denylist => Action.Deny)
  | Except.ok false =>
    match table_lookup t binprm_inode with
    | Except.error e => Except.error e
    | Except.ok true =>
      Except.ok
        (match mode with
         | Mode.Allowlist => Action.Allow
         | Mode.Denylist => Action.Deny)
    | Except.ok false =>
      Except.ok
        (match mode with
         | Mode.Allowlist => Action.Deny
         | Mode.Denylist => Action.Allow)

/-- `check_conditions_and_alert` lifted over possibly-unavailable tables:
a failed lookup is surfaced before any alert is considered. -/
def check_conditions_and_alert_tables (sink : SbMount → Bool)
    (t : Option PolicyMap) (pid : Nat) (binprm_inode : Nat) (mode : Mode) :
    Except Int (Action × List SbMount) :=
  match check_conditions_tables t binprm_inode mode with
  | Except.error e => Except.error e
  | Except.ok Action.Deny =>
    let record := SbMount.new pid binprm_inode
    let _ := sink record
    Except.ok (Action.Deny, [record])
  | Except.ok action => Except.ok (action, [])

/-- `sb_mount` lifted over possibly-unavailable tables (claim C7's
setting): the wildcard inspections of the two tables and the decision
algorithm's lookups each go through `table_lookup`, and a failed lookup is
surfaced immediately as a failure of the whole evaluation, with no retry
and no fallback decision. -/
def sb_mount_tables (sink : SbMount → Bool)
    (allowed denied : Option PolicyMap) (binprm : Except Int Nat)
    (pid : Nat) : Except Int (Action × List SbMount) :=
  match binprm with
  | Except.error e => Except.error e
  | Except.ok binprm_inode =>
    match table_lookup allowed INODE_WILDCARD with
    | Except.error e => Except.error e
    | Except.ok true =>
      check_conditions_and_alert_tables sink denied pid binprm_inode
        Mode.Denylist
    | Except.ok false =>
      match table_lookup denied INODE_WILDCARD with
      | Except.error e => Except.error e
      | Except.ok true =>
        check_conditions_and_alert_tables sink allowed pid binprm_inode
          Mode.Allowlist
      | Except.ok false => Except.ok (Action.Allow, [])

/-! Helper lemmas shared by the claim theorems. -/

/-- The decision component of `check_conditions_and_alert` is exactly the
decision computed by `check_conditions`. -/
theorem check_conditions_and_alert_fst (sink : SbMount → Bool) (map : PolicyMap) (pid binprm_inode : Nat) (mode : Mode) : (check_conditions_and_alert sink map pid binprm_inode mode).1 = check_conditions map binprm_inode mode := by
  unfold check_conditions_and_alert
  cases h : check_conditions map binprm_inode mode <;> simp [h]

/-- The alerts emitted by `check_conditions_and_alert` are determined by
its decision component: one record on `Deny`, none on `Allow`. -/
theorem check_conditions_and_alert_snd (sink : SbMount → Bool) (map : PolicyMap) (pid binprm_inode : Nat) (mode : Mode) : (check_conditions_and_alert sink map pid binprm_inode mode).2 = (match (check_conditions_and_alert sink map pid binprm_inode mode).1 with | Action.Deny => [SbMount.new pid binprm_inode] | Action.Allow => []) := by
  unfold check_conditions_and_alert
  cases h : check_conditions map binprm_inode mode <;> simp [h]

/-- `check_conditions_and_alert` does not depend on the sink callback: its
submission outcome is discarded by the source. -/
theorem check_conditions_and_alert_sink_eq (sink1 sink2 : SbMount → Bool) (map : PolicyMap) (pid binprm_inode : Nat) (mode : Mode) : check_conditions_and_alert sink1 map pid binprm_inode mode = check_conditions_and_alert sink2 map pid binprm_inode mode := by
  unfold check_conditions_and_alert
  cases h : check_conditions map binprm_inode mode <;> simp [h]

example : sb_mount (fun _ => true) [0] [42] (Except.ok 42) 7 = Except.ok (Action.Deny, [SbMount.new 7 42]) := by rfl

example : sb_mount (fun _ => true) [0] [42] (Except.ok 99) 8 = Except.ok (Action.Allow, []) := by rfl

example : sb_mount (fun _ => true) [] [0, 5] (Except.ok 5) 1 = Except.ok (Action.Deny, [SbMount.new 1 5]) := by rfl

example : sb_mount (fun _ => true) [] [0, 5] (Except.ok 6) 2 = Except.ok (Action.Deny, [SbMount.new 2 6]) := by rfl

example : sb_mount (fun _ => true) [7] [] (Except.ok 7) 3 = Except.ok (Action.Allow, []) := by rfl

/-- Claim C1: for every subject id, if neither `ALLOWED_SB_MOUNT` nor
`DENIED_SB_MOUNT` contains the wildcard key, then `sb_mount` returns
`Allow`, regardless of whether the subject appears as a specific entry in
either table, and no alert is emitted. -/
theorem sb_mount_unrestricted_allows (sink : SbMount → Bool) (allowed denied : PolicyMap) (s pid : Nat) (ha : INODE_WILDCARD ∉ allowed) (hd : INODE_WILDCARD ∉ denied) : sb_mount sink allowed denied (Except.ok s) pid = Except.ok (Action.Allow, []) := by
  simp [sb_mount, ha, hd]

/-- Witness for C1: subject 9 appears in both tables, neither table holds
the wildcard, and the result is `Allow` with no alert. -/
theorem sb_mount_unrestricted_allows_witness : INODE_WILDCARD ∉ ([5, 9] : PolicyMap) ∧ INODE_WILDCARD ∉ ([9] : PolicyMap) ∧ sb_mount (fun _ => true) [5, 9] [9] (Except.ok 9) 7 = Except.ok (Action.Allow, []) :=
  ⟨by decide, by decide, sb_mount_unrestricted_allows (fun _ => true) [5, 9] [9] 9 7 (by decide) (by decide)⟩

/-- Claim C2: whenever `sb_mount` returns a decision, the alerts submitted
during the call are exactly one record carrying the invocation's pid and
binprm inode when the decision is `Deny`, and none when it is `Allow`
(including the unrestricted case). -/
theorem sb_mount_alert_iff_deny (sink : SbMount → Bool) (allowed denied : PolicyMap) (s pid : Nat) (r : Action × List SbMount) (h : sb_mount sink allowed denied (Except.ok s) pid = Except.ok r) : r.2 = (match r.1 with | Action.Deny => [SbMount.new pid s] | Action.Allow => []) := by
  simp only [sb_mount] at h
  split_ifs at h with h1 h2 <;> injection h with h <;> rw [← h]
  · exact check_conditions_and_alert_snd sink denied pid s Mode.Denylist
  · exact check_conditions_and_alert_snd sink allowed pid s Mode.Allowlist

/-- Witness for C2: a concrete denied invocation submits exactly the one
record with its pid and subject id. -/
theorem sb_mount_alert_iff_deny_witness : ([SbMount.new 7 42] : List SbMount) = (match Action.Deny with | Action.Deny => [SbMount.new 7 42] | Action.Allow => ([] : List SbMount)) :=
  sb_mount_alert_iff_deny (fun _ => true) [0] [42] 42 7 (Action.Deny, [SbMount.new 7 42]) (by rfl)

/-- Claim C3: if both tables contain the wildcard key, `sb_mount` returns
`Deny` for every subject (the wildcard branch of the decision algorithm,
applied to the deny table in `Denylist` mode, dominates the global-allow
baseline), and the denial is alerted. -/
theorem sb_mount_double_wildcard_denies (sink : SbMount → Bool) (allowed denied : PolicyMap) (s pid : Nat) (ha : INODE_WILDCARD ∈ allowed) (hd : INODE_WILDCARD ∈ denied) : sb_mount sink allowed denied (Except.ok s) pid = Except.ok (Action.Deny, [SbMount.new pid s]) := by
  simp [sb_mount, check_conditions_and_alert, check_conditions, ha, hd]

/-- Witness for C3: both tables hold the wildcard and subject 9 is
denied. -/
theorem sb_mount_double_wildcard_denies_witness : INODE_WILDCARD ∈ ([0, 5] : PolicyMap) ∧ INODE_WILDCARD ∈ ([0] : PolicyMap) ∧ sb_mount (fun _ => true) [0, 5] [0] (Except.ok 9) 4 = Except.ok (Action.Deny, [SbMount.new 4 9]) :=
  ⟨by decide, by decide, sb_mount_double_wildcard_denies (fun _ => true) [0, 5] [0] 9 4 (by decide) (by decide)⟩

/-- Claim C4: if the allow table contains the wildcard key and the deny
table is exactly the single specific entry `s0` (no wildcard), then `s0`
is denied (with its alert) and any other subject `s1` is allowed. -/
theorem sb_mount_global_allow_single_deny (sink : SbMount → Bool) (allowed : PolicyMap) (s0 s1 pid : Nat) (ha : INODE_WILDCARD ∈ allowed) (h0 : s0 ≠ INODE_WILDCARD) (hne : s1 ≠ s0) : sb_mount sink allowed [s0] (Except.ok s0) pid = Except.ok (Action.Deny, [SbMount.new pid s0]) ∧ sb_mount sink allowed [s0] (Except.ok s1) pid = Except.ok (Action.Allow, []) := by
  constructor <;> simp [sb_mount, check_conditions_and_alert, check_conditions, ha, Ne.symm h0, hne]

/-- Witness for C4: allow table `[0]` (wildcard), deny table `[42]`;
subject 42 is denied with an alert, subject 99 is allowed. -/
theorem sb_mount_global_allow_single_deny_witness : INODE_WILDCARD ∈ ([0] : PolicyMap) ∧ (42 ≠ INODE_WILDCARD) ∧ (99 ≠ 42) ∧ sb_mount (fun _ => true) [0] [42] (Except.ok 42) 7 = Except.ok (Action.Deny, [SbMount.new 7 42]) ∧ sb_mount (fun _ => true) [0] [42] (Except.ok 99) 7 = Except.ok (Action.Allow, []) :=
  ⟨by decide, by decide, by decide, sb_mount_global_allow_single_deny (fun _ => true) [0] 42 99 7 (by decide) (by decide) (by decide)⟩

/-- Claim C5: if the deny table contains the wildcard key and the allow
table is exactly the single specific entry `s0` (no wildcard), then `s0`
is allowed (the explicit allow overrides the global deny) and any other
subject `s1` is denied (with its alert). -/
theorem sb_mount_global_deny_single_allow (sink : SbMount → Bool) (denied : PolicyMap) (s0 s1 pid : Nat) (hd : INODE_WILDCARD ∈ denied) (h0 : s0 ≠ INODE_WILDCARD) (hne : s1 ≠ s0) : sb_mount sink [s0] denied (Except.ok s0) pid = Except.ok (Action.Allow, []) ∧ sb_mount sink [s0] denied (Except.ok s1) pid = Except.ok (Action.Deny, [SbMount.new pid s1]) := by
  constructor <;> simp [sb_mount, check_conditions_and_alert, check_conditions, hd, Ne.symm h0, hne]

/-- Witness for C5: allow table `[7]`, deny table `[0]` (wildcard);
subject 7 is allowed, subject 8 is denied with an alert. -/
theorem sb_mount_global_deny_single_allow_witness : INODE_WILDCARD ∈ ([0] : PolicyMap) ∧ (7 ≠ INODE_WILDCARD) ∧ (8 ≠ 7) ∧ sb_mount (fun _ => true) [7] [0] (Except.ok 7) 3 = Except.ok (Action.Allow, []) ∧ sb_mount (fun _ => true) [7] [0] (Except.ok 8) 3 = Except.ok (Action.Deny, [SbMount.new 3 8]) :=
  ⟨by decide, by decide, by decide, sb_mount_global_deny_single_allow (fun _ => true) [0] 7 8 3 (by decide) (by decide) (by decide)⟩

/-- Claim C6: the outcome of the alert-sink submission never changes the
result of `sb_mount` (any two sinks yield identical results, decision and
all), and when the subject id is resolved, `sb_mount` never returns a
failure — in particular a sink failure cannot surface as one. -/
theorem sb_mount_sink_fireandforget (sink1 sink2 : SbMount → Bool) (allowed denied : PolicyMap) (binprm : Except Int Nat) (s pid : Nat) : sb_mount sink1 allowed denied binprm pid = sb_mount sink2 allowed denied binprm pid ∧ ∃ r, sb_mount sink1 allowed denied (Except.ok s) pid = Except.ok r := by
  constructor
  · cases binprm with
    | error e => rfl
    | ok i =>
      simp only [sb_mount]
      split_ifs <;> simp [check_conditions_and_alert_sink_eq sink1 sink2]
  · simp only [sb_mount]
    split_ifs <;> exact ⟨_, rfl⟩

/-- Claim C9: the decision returned by `sb_mount` does not depend on the
requester pid; the pid influences only the contents of the emitted alert
record. -/
theorem sb_mount_decision_pid_independent (sink : SbMount → Bool) (allowed denied : PolicyMap) (binprm : Except Int Nat) (p1 p2 : Nat) : Except.map Prod.fst (sb_mount sink allowed denied binprm p1) = Except.map Prod.fst (sb_mount sink allowed denied binprm p2) := by
  cases binprm with
  | error e => rfl
  | ok i =>
    simp only [sb_mount]
    split_ifs <;> simp [Except.map, check_conditions_and_alert_fst]

/-- Claim C10: the three-step `check_conditions` coincides with the merged
two-case function in which the wildcard test and the specific-subject test
are a single membership disjunction. -/
theorem check_conditions_eq_merged (map : PolicyMap) (binprm_inode : Nat) (mode : Mode) : check_conditions map binprm_inode mode = check_conditions_merged map binprm_inode mode := by
  unfold check_conditions check_conditions_merged
  cases h1 : map.contains INODE_WILDCARD <;> cases h2 : map.contains binprm_inode <;> simp [h1, h2]

/-- Claim C7: if a policy table consulted by the evaluation is unavailable
(so a lookup against it cannot be completed), the evaluation surfaces this
immediately as a failure, applying no fallback decision; and when both
tables are available, the evaluation coincides with `sb_mount`, so there is
no other table-related failure path. -/
theorem sb_mount_tables_lookup_failure (sink : SbMount → Bool) (oa od : Option PolicyMap) (a d : PolicyMap) (s pid : Nat) : ((oa = none ∨ od = none) → ∃ e, sb_mount_tables sink oa od (Except.ok s) pid = Except.error e) ∧ sb_mount_tables sink (some a) (some d) (Except.ok s) pid = sb_mount sink a d (Except.ok s) pid := by
  constructor
  · rintro (rfl | rfl)
    · exact ⟨policyTableUnavailable, rfl⟩
    · cases oa with
      | none => exact ⟨policyTableUnavailable, rfl⟩
      | some a1 =>
        refine ⟨policyTableUnavailable, ?_⟩
        by_cases h : INODE_WILDCARD ∈ a1 <;> simp [sb_mount_tables, table_lookup, check_conditions_and_alert_tables, check_conditions_tables, h]
  · by_cases h1 : INODE_WILDCARD ∈ a <;> by_cases h2 : INODE_WILDCARD ∈ d <;> by_cases h3 : s ∈ d <;> by_cases h4 : s ∈ a <;> simp [sb_mount_tables, sb_mount, table_lookup, check_conditions_and_alert_tables, check_conditions_tables, check_conditions_and_alert, check_conditions, h1, h2, h3, h4]

/-- Witness for C7: with the allow table unavailable, evaluation fails;
with both tables available it agrees with `sb_mount` on a concrete
input. -/
theorem sb_mount_tables_lookup_failure_witness : (((none : Option PolicyMap) = none ∨ (some [3] : Option PolicyMap) = none) ∧ ∃ e, sb_mount_tables (fun _ => true) none (some [3]) (Except.ok 5) 7 = Except.error e) ∧ sb_mount_tables (fun _ => true) (some [0]) (some [3]) (Except.ok 5) 7 = sb_mount (fun _ => true) [0] [3] (Except.ok 5) 7 :=
  ⟨⟨Or.inl rfl, (sb_mount_tables_lookup_failure (fun _ => true) none (some [3]) [0] [3] 5 7).1 (Or.inl rfl)⟩, (sb_mount_tables_lookup_failure (fun _ => true) none (some [3]) [0] [3] 5 7).2⟩

/-- Claim C8: `sb_mount` factors through the mode resolution `resolve`
(so the decision algorithm receives exactly the mode and exception table
`resolve` computes), and any resolution in `Allowlist` mode carries an
exception table free of the wildcard key: the step-1 wildcard branch of
`check_conditions` cannot return `Allow` under `Allowlist` mode when
invoked from `sb_mount` on one fixed table state. -/
theorem sb_mount_allowlist_table_no_wildcard (sink : SbMount → Bool) (allowed denied : PolicyMap) (s pid : Nat) (m : Mode) (t : PolicyMap) : (sb_mount sink allowed denied (Except.ok s) pid = Except.ok (match resolve allowed denied with | none => (Action.Allow, []) | some mt => check_conditions_and_alert sink mt.2 pid s mt.1)) ∧ (resolve allowed denied = some (m, t) → m = Mode.Allowlist → t.contains INODE_WILDCARD = false) := by
  constructor
  · simp only [sb_mount, resolve]
    split_ifs <;> rfl
  · intro hres hm
    unfold resolve at hres
    split_ifs at hres with h1 h2
    · simp only [Option.some.injEq, Prod.mk.injEq] at hres
      rw [← hres.1] at hm
      exact absurd hm (by decide)
    · simp only [Option.some.injEq, Prod.mk.injEq] at hres
      rw [← hres.2]
      exact Bool.not_eq_true _ ▸ h1

/-- Witness for C8: with allow table `[5]` and deny table `[0]` (the
wildcard), `resolve` yields `Allowlist` with exception table `[5]`, which
does not contain the wildcard key. -/
theorem sb_mount_allowlist_table_no_wildcard_witness : resolve [5] [0] = some (Mode.Allowlist, [5]) ∧ ([5] : PolicyMap).contains INODE_WILDCARD = false :=
  ⟨by decide, (sb_mount_allowlist_table_no_wildcard (fun _ => true) [5] [0] 3 7 Mode.Allowlist [5]).2 (by decide) rfl⟩


end Ebpfguard
